import Mathlib

/-
Verification of the GenAI Shopping-List-Manager CLI application.

This file is a shallow embedding, in Lean 4, of the parts of the Python
source that the specification's testable properties talk about:

  * src/models.py     - ShoppingItem, ShoppingList, RecipeIngredient, Recipe
                        and their methods (remove_item, to_shopping_list,
                        get_total_time, category grouping);
  * src/database.py   - the SQLite persistence of shopping lists
                        (save_shopping_list / load_shopping_list /
                        delete_shopping_list), modelled as a value-level
                        store of rows;
  * src/utils.py      - the JSON-file persistence (save_list / delete_list
                        via load_all_lists / save_all_lists) and the two
                        markdown exporters;
  * src/llm_calls.py  - the free-text recipe-response parser inside
                        generate_recipe_from_name;
  * src/main.py       - the interactive quantity validation in create_list.

Modelling conventions, used consistently below:
  * Python `str` is `List Char` (called `PyStr`).  The handful of string
    primitives the code uses (strip, lower, split, startswith, `in`,
    lstrip with a character set) are re-implemented with Python's
    semantics.
  * Python floats that hold item quantities are modelled as rationals
    `Rat`; the code only constructs, compares and adds them, so no claim
    here depends on binary-float rounding.
  * `datetime` values are modelled as abstract `Nat` stamps.  The code
    only ever moves them through `isoformat`/`fromisoformat`, an inverse
    pair, so serialisation of timestamps is modelled as the identity.
  * Exceptions that can only arise from the environment (disk or network
    I/O, the OpenAI call itself) are outside the model: the persistence
    operations model the non-throwing executions, which is what every
    claim under examination speaks about.  Exceptions raised by the
    modelled code itself (ZeroDivisionError in Recipe.to_shopping_list)
    are modelled with Option.
-/

/-- Python strings are modelled as lists of characters. -/
abbrev PyStr := List Char

/-- Python's notion of whitespace for str.strip(): space, tab, newline,
carriage return, vertical tab, form feed. -/
def isPySpace (c : Char) : Bool :=
  c = ' ' || c = '\t' || c = '\n' || c = '\r' || c = Char.ofNat 11 || c = Char.ofNat 12

/-- Model of Python str.strip(): remove leading and trailing whitespace. -/
def pyStrip (s : PyStr) : PyStr :=
  ((s.dropWhile isPySpace).reverse.dropWhile isPySpace).reverse

/-- Model of Python str.lower().  The headers the parser compares are ASCII;
Char.toLower agrees with Python on ASCII letters. -/
def pyLower (s : PyStr) : PyStr :=
  s.map Char.toLower

/-- Locate the first occurrence of `pat` in `s`; on success return the text
before the occurrence and the text after it.  This is the search primitive
behind the models of Python's `in`, str.split and str.find. -/
def findSplit (pat : PyStr) : PyStr → Option (PyStr × PyStr)
  | [] => if pat = [] then some ([], []) else none
  | c :: cs =>
    if pat.isPrefixOf (c :: cs) then some ([], (c :: cs).drop pat.length)
    else
      match findSplit pat cs with
      | some (p, r) => some (c :: p, r)
      | none => none

/-- Model of Python's substring test `pat in s`. -/
def containsSub (pat s : PyStr) : Bool :=
  (findSplit pat s).isSome

/-- Fuelled worker for `pySplit`; the fuel is always enough because every
recursive call strictly shrinks the remaining text (separators handed to it
are never empty). -/
def pySplitF : Nat → PyStr → PyStr → List PyStr
  | 0, _, s => [s]
  | fuel + 1, sep, s =>
    match findSplit sep s with
    | none => [s]
    | some (p, r) => p :: pySplitF fuel sep r

/-- Model of Python str.split(sep): split on every non-overlapping
occurrence of `sep`, scanning left to right, keeping empty pieces. -/
def pySplit (sep s : PyStr) : List PyStr :=
  pySplitF (s.length + 1) sep s

/-- Model of Python `s.split(":", 1)[1]`: everything after the first colon.
Every caller in the parser has already matched a header that contains a
colon, so the element [1] always exists there. -/
def afterFirstColon (s : PyStr) : PyStr :=
  (s.dropWhile (fun c => !(c = ':'))).drop 1

/-- Numeric value of a list of decimal digit characters. -/
def digitsVal (l : PyStr) : Nat :=
  l.foldl (fun a c => a * 10 + (c.toNat - '0'.toNat)) 0

/-- Model of Python `int(''.join(filter(str.isdigit, s)))`: keep the digit
characters and read them as a decimal number; ValueError (no digits at all)
is `none`. -/
def pyIntOfDigitFilter (s : PyStr) : Option Nat :=
  let ds := s.filter (fun c => c.isDigit)
  if ds = [] then none else some (digitsVal ds)

/-- Model of Python int(str): optional sign around a nonempty digit string,
with surrounding whitespace allowed; anything else is ValueError (`none`).
(Underscore separators of Python are not modelled; no input here uses them.) -/
def pyInt? (s : PyStr) : Option Int :=
  match pyStrip s with
  | '+' :: ds => if ds ≠ [] ∧ ds.all Char.isDigit then some (digitsVal ds : Int) else none
  | '-' :: ds => if ds ≠ [] ∧ ds.all Char.isDigit then some (-(digitsVal ds : Int)) else none
  | ds => if ds ≠ [] ∧ ds.all Char.isDigit then some (digitsVal ds : Int) else none

/-- Unsigned decimal part of `pyFloat?`: digits with an optional fractional
part, at least one digit overall.  The value ip.fp is the exact rational
(ip * 10^k + fp) / 10^k, built with Rat.divInt over Nat arithmetic so that it
evaluates by kernel reduction. -/
def pyFloatUnsigned? (t : PyStr) : Option Rat :=
  let ip := t.takeWhile Char.isDigit
  match t.drop ip.length with
  | [] => if ip = [] then none else some (digitsVal ip : Rat)
  | '.' :: fp =>
    if fp.all Char.isDigit ∧ (ip ≠ [] ∨ fp ≠ []) then
      some (Rat.divInt ((digitsVal ip * 10 ^ fp.length + digitsVal fp : Nat) : Int)
        ((10 ^ fp.length : Nat) : Int))
    else none
  | _ => none

/-- Model of Python float(str) on the decimal forms the program feeds it:
optional sign, digits, optional fractional part, surrounding whitespace.
Exponent, infinity and NaN spellings are not modelled; no claim examined
here depends on their values, only on success or failure of the parse. -/
def pyFloat? (s : PyStr) : Option Rat :=
  match pyStrip s with
  | '+' :: t => pyFloatUnsigned? t
  | '-' :: t => (pyFloatUnsigned? t).map (fun q => -q)
  | t => pyFloatUnsigned? t

/-- Model of Python round() on a rational: round half to even, computed on
the numerator and denominator.  `f` is the floor of q (den is positive, so
fdiv is floor division) and `rnum / den` the fractional remainder; the three
branches compare that remainder with one half. -/
def pyRound (q : Rat) : Int :=
  let f := q.num.fdiv (q.den : Int)
  let rnum := q.num - f * (q.den : Int)
  if 2 * rnum < (q.den : Int) then f
  else if (q.den : Int) < 2 * rnum then f + 1
  else if f % 2 = 0 then f else f + 1

/-- Model of Python str.split() with no argument: split on whitespace runs
and drop empty pieces. -/
def pyWsSplit (s : PyStr) : List PyStr :=
  (List.splitOnP isPySpace s).filter (fun p => !p.isEmpty)

/-- Lexicographic strict order on strings by code point, Python's `<`. -/
def pyStrLt : PyStr → PyStr → Bool
  | [], [] => false
  | [], _ :: _ => true
  | _ :: _, [] => false
  | a :: as, b :: bs => if a < b then true else if b < a then false else pyStrLt as bs

/-- Lexicographic `<=` on strings, Python's `<=`; the sort key order used by
sorted(...). -/
def pyStrLe (a b : PyStr) : Bool :=
  !(pyStrLt b a)

/-- ShoppingItem of src/models.py: one purchasable item of a shopping list. -/
structure ShoppingItem where
  name : PyStr
  quantity : Rat
  quantity_unit_of_measure : PyStr
  category : PyStr
  purchased : Bool
  notes : Option PyStr
  created_at : Nat
  updated_at : Nat
deriving DecidableEq, Repr

/-- ShoppingList of src/models.py: a named ordered collection of items. -/
structure ShoppingList where
  name : PyStr
  items : List ShoppingItem
  created_at : Nat
  updated_at : Nat
deriving DecidableEq, Repr

/-- RecipeIngredient of src/models.py: an ingredient with a free-text
quantity. -/
structure RecipeIngredient where
  name : PyStr
  quantity : PyStr
  category : PyStr
  notes : Option PyStr
deriving DecidableEq, Repr

/-- Recipe of src/models.py. -/
structure Recipe where
  name : PyStr
  ingredients : List RecipeIngredient
  instructions : List PyStr
  prep_time : Option Int
  cook_time : Option Int
  servings : Int
  description : Option PyStr
  notes : Option PyStr
  created_at : Nat
  updated_at : Nat
deriving DecidableEq, Repr

/-- ShoppingList.add_item: append the item and refresh updated_at. -/
def ShoppingList.add_item (sl : ShoppingList) (item : ShoppingItem) (now : Nat) : ShoppingList :=
  { sl with items := sl.items ++ [item], updated_at := now }

/-- Case-insensitive name match used by ShoppingList.remove_item. -/
def itemNameMatches (target : PyStr) (it : ShoppingItem) : Bool :=
  pyLower it.name == pyLower target

/-- Remove the first case-insensitively matching item, if any.  In the
Python body the loop finds the first matching item object and calls
list.remove on it; list.remove erases the first element that compares
equal, and any earlier value-equal element would share the name and hence
also match, so the erased element is exactly the first match. -/
def removeFirstMatch (target : PyStr) : List ShoppingItem → Option (List ShoppingItem)
  | [] => none
  | it :: rest =>
    if itemNameMatches target it then some rest
    else (removeFirstMatch target rest).map (fun l => it :: l)

/-- ShoppingList.remove_item: drop the first item whose name equals the
argument ignoring case; report whether something was removed. -/
def ShoppingList.remove_item (sl : ShoppingList) (target : PyStr) (now : Nat) :
    ShoppingList × Bool :=
  match removeFirstMatch target sl.items with
  | some items' => ({ sl with items := items', updated_at := now }, true)
  | none => (sl, false)

/-- Recipe.get_total_time: None unless both times are present, otherwise
their sum. -/
def Recipe.get_total_time (r : Recipe) : Option Int :=
  match r.prep_time, r.cook_time with
  | some p, some c => some (p + c)
  | _, _ => none

/-- Quantity extraction of Recipe.to_shopping_list for one ingredient: take
the first whitespace token of the free-text quantity; a fraction is split on
'/' and evaluated, anything else goes through float(); the result is rounded
and clamped to at least 1.  ValueError and IndexError fall back to 1, but a
zero denominator raises ZeroDivisionError, which the Python code does not
catch: that uncaught exception is the `none` case. -/
def ingredientShoppingQuantity (q : PyStr) : Option Rat :=
  match (pyWsSplit q).head? with
  | none => some 1
  | some p0 =>
    if p0.contains '/' then
      match pySplit (['/']) p0 with
      | [n, d] =>
        match pyInt? n, pyInt? d with
        | some ni, some di =>
          if di = 0 then none
          else some ((max 1 (pyRound (Rat.divInt ni di)) : Int) : Rat)
        | _, _ => some 1
      | _ => some 1
    else
      match pyFloat? p0 with
      | some v => some ((max 1 (pyRound v) : Int) : Rat)
      | none => some 1

/-- Shopping item built for one recipe ingredient inside
Recipe.to_shopping_list: numeric quantity as computed above, the unit left
at its dataclass default "pieces", notes combining the free-text quantity
with the ingredient's notes when those are truthy. -/
def shoppingItemOfIngredient (ing : RecipeIngredient) (q : Rat) (now : Nat) : ShoppingItem :=
  { name := ing.name
    quantity := q
    quantity_unit_of_measure := ("pieces").toList
    category := ing.category
    purchased := false
    notes := some (ing.quantity ++
      (match ing.notes with
       | some n => if n ≠ [] then (" - ").toList ++ n else []
       | none => []))
    created_at := now
    updated_at := now }

/-- Items produced by the loop of Recipe.to_shopping_list; `none` when some
ingredient raises the uncaught ZeroDivisionError. -/
def shoppingItemsOfIngredients (now : Nat) : List RecipeIngredient → Option (List ShoppingItem)
  | [] => some []
  | ing :: rest =>
    match ingredientShoppingQuantity ing.quantity with
    | none => none
    | some q =>
      (shoppingItemsOfIngredients now rest).map (fun its => shoppingItemOfIngredient ing q now :: its)

/-- Recipe.to_shopping_list: a new list named "<recipe> ingredients" holding
one item per ingredient. -/
def Recipe.to_shopping_list (r : Recipe) (now : Nat) : Option ShoppingList :=
  (shoppingItemsOfIngredients now r.ingredients).map
    (fun its => { name := r.name ++ (" ingredients").toList
                  items := its
                  created_at := now
                  updated_at := now })

/-- Row of the shopping_items table of src/database.py.  The CREATE TABLE
statement has no column for quantity_unit_of_measure, so a saved item row
carries every ShoppingItem field except the unit. -/
structure DbItemRow where
  name : PyStr
  quantity : Rat
  category : PyStr
  purchased : Bool
  notes : Option PyStr
  created_at : Nat
  updated_at : Nat
deriving DecidableEq, Repr

/-- Row of the shopping_lists table of src/database.py together with the
item rows that reference it.  Rows orphaned by INSERT OR REPLACE (their
list_id never matches again) are invisible to every query in the module and
are therefore not part of the state. -/
structure DbListRow where
  name : PyStr
  created_at : Nat
  updated_at : Nat
  items : List DbItemRow
deriving DecidableEq, Repr

/-- Visible state of the shopping-list side of the SQLite database. -/
abbrev ShoppingDb := List DbListRow

/-- Projection of a ShoppingItem onto the columns of the shopping_items
INSERT of save_shopping_list; the unit is not among them. -/
def dbItemOfShoppingItem (it : ShoppingItem) : DbItemRow :=
  { name := it.name
    quantity := it.quantity
    category := it.category
    purchased := it.purchased
    notes := it.notes
    created_at := it.created_at
    updated_at := it.updated_at }

/-- Row written for a whole shopping list by save_shopping_list. -/
def dbRowOfShoppingList (sl : ShoppingList) : DbListRow :=
  { name := sl.name
    created_at := sl.created_at
    updated_at := sl.updated_at
    items := sl.items.map dbItemOfShoppingItem }

/-- database.save_shopping_list: INSERT OR REPLACE the list row keyed by its
UNIQUE name, delete the item rows attached to it, insert one item row per
item; True on the non-throwing executions this model covers. -/
def save_shopping_list (db : ShoppingDb) (sl : ShoppingList) : ShoppingDb × Bool :=
  ((db.filter (fun r => !(r.name == sl.name))) ++ [dbRowOfShoppingList sl], true)

/-- Reconstruction of one item by load_shopping_list; the unit column does
not exist, so the ShoppingItem default "pieces" applies. -/
def shoppingItemOfDbRow (row : DbItemRow) : ShoppingItem :=
  { name := row.name
    quantity := row.quantity
    quantity_unit_of_measure := ("pieces").toList
    category := row.category
    purchased := row.purchased
    notes := row.notes
    created_at := row.created_at
    updated_at := row.updated_at }

/-- database.load_shopping_list: None when no list row has the name,
otherwise the list rebuilt from its rows (item rows come back in insertion
order). -/
def load_shopping_list (db : ShoppingDb) (name : PyStr) : Option ShoppingList :=
  (db.find? (fun r => r.name == name)).map
    (fun r => { name := name
                items := r.items.map shoppingItemOfDbRow
                created_at := r.created_at
                updated_at := r.updated_at })

/-- database.delete_shopping_list: DELETE FROM shopping_lists WHERE name = ?,
then return True whether or not a row existed. -/
def delete_shopping_list (db : ShoppingDb) (name : PyStr) : ShoppingDb × Bool :=
  (db.filter (fun r => !(r.name == name)), true)

/-- Item object of the JSON documents written by src/utils.py
(save_all_lists / save_list_to_file).  The serialised dictionary has keys
name, quantity, category, purchased, notes, created_at, updated_at - and no
quantity_unit_of_measure. -/
structure UtilItemRecord where
  name : PyStr
  quantity : Rat
  category : PyStr
  purchased : Bool
  notes : Option PyStr
  created_at : Nat
  updated_at : Nat
deriving DecidableEq, Repr

/-- Shopping-list object of the JSON array written by save_all_lists. -/
structure UtilListRecord where
  name : PyStr
  items : List UtilItemRecord
  created_at : Nat
  updated_at : Nat
deriving DecidableEq, Repr

/-- Contents of the shopping_lists.json file. -/
abbrev ListsFile := List UtilListRecord

/-- Serialisation of one item by save_all_lists. -/
def encodeItem (it : ShoppingItem) : UtilItemRecord :=
  { name := it.name
    quantity := it.quantity
    category := it.category
    purchased := it.purchased
    notes := it.notes
    created_at := it.created_at
    updated_at := it.updated_at }

/-- Deserialisation of one item by load_all_lists; the unit key is absent
from the document, so the dataclass default "pieces" applies. -/
def decodeItem (rec : UtilItemRecord) : ShoppingItem :=
  { name := rec.name
    quantity := rec.quantity
    quantity_unit_of_measure := ("pieces").toList
    category := rec.category
    purchased := rec.purchased
    notes := rec.notes
    created_at := rec.created_at
    updated_at := rec.updated_at }

/-- Serialisation of one shopping list by save_all_lists. -/
def encodeList (sl : ShoppingList) : UtilListRecord :=
  { name := sl.name
    items := sl.items.map encodeItem
    created_at := sl.created_at
    updated_at := sl.updated_at }

/-- Deserialisation of one shopping list by load_all_lists. -/
def decodeList (rec : UtilListRecord) : ShoppingList :=
  { name := rec.name
    items := rec.items.map decodeItem
    created_at := rec.created_at
    updated_at := rec.updated_at }

/-- utils.load_all_lists on an existing well-formed file. -/
def load_all_lists (fs : ListsFile) : List ShoppingList :=
  fs.map decodeList

/-- utils.save_all_lists; True on the non-throwing executions this model
covers. -/
def save_all_lists (ls : List ShoppingList) : ListsFile × Bool :=
  (ls.map encodeList, true)

/-- Loop of utils.save_list: overwrite the first list with the same name,
or report that none was found. -/
def replaceFirstByName (sl : ShoppingList) : List ShoppingList → Option (List ShoppingList)
  | [] => none
  | x :: rest =>
    if x.name == sl.name then some (sl :: rest)
    else (replaceFirstByName sl rest).map (fun l => x :: l)

/-- utils.save_list: load every list, replace the one with the same name or
append, save everything back. -/
def save_list (fs : ListsFile) (sl : ShoppingList) : ListsFile × Bool :=
  let lists := load_all_lists fs
  let lists' :=
    match replaceFirstByName sl lists with
    | some l => l
    | none => lists ++ [sl]
  save_all_lists lists'

/-- utils.delete_list: load every list, keep those with a different name,
save the rest back; the returned Bool is save_all_lists' success flag. -/
def delete_list (fs : ListsFile) (name : PyStr) : ListsFile × Bool :=
  save_all_lists ((load_all_lists fs).filter (fun l => !(l.name == name)))

/-- Opening brace character, spelled via its code point. -/
def lbrace : Char := Char.ofNat 123

/-- Closing brace character, spelled via its code point. -/
def rbrace : Char := Char.ofNat 125

/-- Skip blanks inside an ingredient dictionary literal. -/
def skipWs (s : PyStr) : PyStr :=
  s.dropWhile isPySpace

/-- Read one double-quoted string literal (after optional blanks) and return
its content together with the remaining text.  The template the program
requests has plain double-quoted strings; literals containing backslash
escapes or single quotes are outside this model of eval and are rejected. -/
def parseStrLit (s : PyStr) : Option (PyStr × PyStr) :=
  match skipWs s with
  | '"' :: rest =>
    match findSplit (['"']) rest with
    | some (content, r) => if content.contains '\\' then none else some (content, r)
    | none => none
  | _ => none

/-- Read the "key": "value" pairs of a dictionary literal after its opening
brace.  A duplicate key overwrites the earlier binding, as in Python.  The
fuel strictly exceeds the text length, and every round consumes at least one
character, so it never runs out on accepted input. -/
def parseDictEntries : Nat → PyStr → List (PyStr × PyStr) → Option (List (PyStr × PyStr))
  | 0, _, _ => none
  | fuel + 1, s, acc =>
    match parseStrLit s with
    | none => none
    | some (k, r1) =>
      match skipWs r1 with
      | ':' :: r2 =>
        match parseStrLit r2 with
        | none => none
        | some (v, r3) =>
          let acc' := (acc.filter (fun kv => !(kv.1 == k))) ++ [(k, v)]
          match skipWs r3 with
          | c :: r4 =>
            if c = ',' then parseDictEntries fuel r4 acc'
            else if c = rbrace then (if skipWs r4 = [] then some acc' else none)
            else none
          | [] => none
      | _ => none

/-- Model of the `eval(line)` call of the parser, restricted to the shape
the prompt demands: a single-line Python dictionary literal with
double-quoted string keys and values.  Any other line shape makes eval fail
or produce a non-dict, and either way the parser skips the line, so both are
`none` here. -/
def pyEvalDictLit (s : PyStr) : Option (List (PyStr × PyStr)) :=
  match skipWs s with
  | c :: r =>
    if c = lbrace then
      match skipWs r with
      | c2 :: r2 =>
        if c2 = rbrace then (if skipWs r2 = [] then some [] else none)
        else parseDictEntries (s.length + 1) r []
      | [] => none
    else none
  | [] => none

/-- Lookup in a parsed dictionary (keys are unique by construction). -/
def dictGet? (d : List (PyStr × PyStr)) (k : PyStr) : Option PyStr :=
  (d.find? (fun kv => kv.1 == k)).map (fun kv => kv.2)

/-- dict.get with a default. -/
def dictGetD (d : List (PyStr × PyStr)) (k dflt : PyStr) : PyStr :=
  (dictGet? d k).getD dflt

/-- One line of an "Ingredients" section: strip it, skip blank and
"#"-prefixed lines, evaluate it as a dictionary literal, and accept it only
when both "name" and "quantity" keys are present; "category" defaults to
"Other" and "notes" to the empty string. -/
def lineIngredient (line : PyStr) : Option RecipeIngredient :=
  let l := pyStrip line
  if l = [] then none
  else if l.head? = some '#' then none
  else
    match pyEvalDictLit l with
    | none => none
    | some d =>
      match dictGet? d (("name").toList), dictGet? d (("quantity").toList) with
      | some nm, some qt =>
        some { name := nm
               quantity := qt
               category := dictGetD d (("category").toList) (("Other").toList)
               notes := some (dictGetD d (("notes").toList) []) }
      | _, _ => none

/-- Character set of the numbering strip: `line.lstrip("0123456789. ")`. -/
def numberingChars : PyStr :=
  ("0123456789. ").toList

/-- Model of `line.lstrip("0123456789. ")`: drop the longest leading run of
digits, periods and spaces. -/
def stripInstrNumbering (l : PyStr) : PyStr :=
  l.dropWhile (fun c => numberingChars.contains c)

/-- One line of an "Instructions" section: strip it, skip blank and
"#"-prefixed lines, remove the leading numbering run, and keep the line only
if something remains. -/
def lineInstruction (line : PyStr) : Option PyStr :=
  let l := pyStrip line
  if l = [] then none
  else if l.head? = some '#' then none
  else
    let i := stripInstrNumbering l
    if i = [] then none else some i

/-- Section classification implementing the if/elif chain of the parser, on
an already stripped nonempty section. -/
inductive SecKind where
  | descriptionK
  | prepTimeK
  | cookTimeK
  | servingsK
  | ingredientsK
  | instructionsK
  | notesK
  | otherK
deriving DecidableEq, Repr

/-- The if/elif chain of generate_recipe_from_name: prefix matches for
description / prep time / cook time / servings, then substring matches for
ingredients / instructions / notes-or-tips, in that order. -/
def classifySection (s : PyStr) : SecKind :=
  let ls := pyLower s
  if (("description:").toList).isPrefixOf ls then SecKind.descriptionK
  else if (("prep time:").toList).isPrefixOf ls then SecKind.prepTimeK
  else if (("cook time:").toList).isPrefixOf ls then SecKind.cookTimeK
  else if (("servings:").toList).isPrefixOf ls then SecKind.servingsK
  else if containsSub (("ingredients:").toList) ls then SecKind.ingredientsK
  else if containsSub (("instructions:").toList) ls then SecKind.instructionsK
  else if containsSub (("notes:").toList) ls || containsSub (("tips:").toList) ls then SecKind.notesK
  else SecKind.otherK

/-- Lines of a section body: the text after the header colon, stripped, then
split on newlines. -/
def sectionContentLines (s : PyStr) : List PyStr :=
  pySplit (['\n']) (pyStrip (afterFirstColon s))

/-- Ingredients contributed by one raw section: nothing unless the stripped
section is nonempty and classified as an ingredients section. -/
def sectionIngredients (sec : PyStr) : List RecipeIngredient :=
  let s := pyStrip sec
  if s = [] then []
  else if classifySection s = SecKind.ingredientsK then
    (sectionContentLines s).filterMap lineIngredient
  else []

/-- Instructions contributed by one raw section. -/
def sectionInstructions (sec : PyStr) : List PyStr :=
  let s := pyStrip sec
  if s = [] then []
  else if classifySection s = SecKind.instructionsK then
    (sectionContentLines s).filterMap lineInstruction
  else []

/-- Whether a raw section is recognised as the description section. -/
def isDescriptionSection (sec : PyStr) : Bool :=
  let s := pyStrip sec
  if s = [] then false else decide (classifySection s = SecKind.descriptionK)

/-- Mutable state of the parsing loop: the fields of the Recipe object under
construction plus the found_sections flags. -/
structure ParseState where
  description : Option PyStr
  prep_time : Option Int
  cook_time : Option Int
  servings : Int
  notes : Option PyStr
  ingredients : List RecipeIngredient
  instructions : List PyStr
  fDesc : Bool
  fPrep : Bool
  fCook : Bool
  fServ : Bool
  fIng : Bool
  fInstr : Bool
  fNotes : Bool
deriving DecidableEq, Repr

/-- State on entry of the loop: Recipe(name=meal) has every optional field
at its default and servings at 4; found_sections is empty. -/
def initParseState : ParseState :=
  { description := none
    prep_time := none
    cook_time := none
    servings := 4
    notes := none
    ingredients := []
    instructions := []
    fDesc := false
    fPrep := false
    fCook := false
    fServ := false
    fIng := false
    fInstr := false
    fNotes := false }

/-- One iteration of the section loop of generate_recipe_from_name.  A
failed int() parse of prep/cook time resets the field to None and does not
mark the section as found; a failed servings parse resets servings to 4;
ingredient and instruction sections accumulate and are marked found exactly
when they contributed at least one entry. -/
def parseStep (st : ParseState) (sec : PyStr) : ParseState :=
  let s := pyStrip sec
  if s = [] then st
  else
    match classifySection s with
    | SecKind.descriptionK =>
      { st with description := some (pyStrip (afterFirstColon s)), fDesc := true }
    | SecKind.prepTimeK =>
      match pyIntOfDigitFilter (pyStrip (afterFirstColon s)) with
      | some n => { st with prep_time := some (n : Int), fPrep := true }
      | none => { st with prep_time := none }
    | SecKind.cookTimeK =>
      match pyIntOfDigitFilter (pyStrip (afterFirstColon s)) with
      | some n => { st with cook_time := some (n : Int), fCook := true }
      | none => { st with cook_time := none }
    | SecKind.servingsK =>
      match pyIntOfDigitFilter (pyStrip (afterFirstColon s)) with
      | some n => { st with servings := (n : Int), fServ := true }
      | none => { st with servings := 4 }
    | SecKind.ingredientsK =>
      let new := (sectionContentLines s).filterMap lineIngredient
      { st with ingredients := st.ingredients ++ new, fIng := st.fIng || !new.isEmpty }
    | SecKind.instructionsK =>
      let new := (sectionContentLines s).filterMap lineInstruction
      { st with instructions := st.instructions ++ new, fInstr := st.fInstr || !new.isEmpty }
    | SecKind.notesK =>
      { st with notes := some (pyStrip (afterFirstColon s)), fNotes := true }
    | SecKind.otherK => st

/-- Sections of the raw response: recipe_text.split("\n\n"). -/
def responseSections (t : PyStr) : List PyStr :=
  pySplit ('\n' :: '\n' :: []) t

/-- Recipe value assembled from the final loop state. -/
def recipeOfState (meal : PyStr) (now : Nat) (st : ParseState) : Recipe :=
  { name := meal
    ingredients := st.ingredients
    instructions := st.instructions
    prep_time := st.prep_time
    cook_time := st.cook_time
    servings := st.servings
    description := st.description
    notes := st.notes
    created_at := now
    updated_at := now }

/-- Parsing half of llm_calls.generate_recipe_from_name: split the response
on blank lines, run the section loop, then fail unless the description,
ingredients and instructions sections were all found and at least one
ingredient and one instruction were parsed. -/
def generate_recipe_from_name_parse (meal : PyStr) (now : Nat) (t : PyStr) : Option Recipe :=
  let st := (responseSections t).foldl parseStep initParseState
  if st.fDesc && st.fIng && st.fInstr then
    if st.ingredients.isEmpty then none
    else if st.instructions.isEmpty then none
    else some (recipeOfState meal now st)
  else none

/-- All ingredients the loop accumulates over a whole response. -/
def parsedIngredients (t : PyStr) : List RecipeIngredient :=
  ((responseSections t).map sectionIngredients).flatten

/-- All instructions the loop accumulates over a whole response. -/
def parsedInstructions (t : PyStr) : List PyStr :=
  ((responseSections t).map sectionInstructions).flatten

/-- Whether some section of the response is recognised as a description
section. -/
def hasDescriptionSection (t : PyStr) : Bool :=
  (responseSections t).any isDescriptionSection

/-- Whether some section of the response contains the "instructions:"
header text at all (case-insensitively). -/
def hasInstructionsHeader (t : PyStr) : Bool :=
  (responseSections t).any (fun sec => containsSub (("instructions:").toList) (pyLower (pyStrip sec)))

/-- Quantity validation of the create_list / add_item loops of src/main.py:
an input string is accepted exactly when float() parses it and the value is
strictly positive. -/
def acceptedQuantityInput (s : PyStr) : Option Rat :=
  match pyFloat? s with
  | some q => if 0 < q then some q else none
  | none => none

/-- Decimal rendering of a Nat, used for the modelled timestamp text. -/
def showNat (n : Nat) : PyStr :=
  (toString n).toList

/-- Rendering of the strftime('%Y-%m-%d %H:%M') calls on the modelled
timestamps.  The exact text is immaterial to every claim here; only the
surrounding markdown structure is examined. -/
def showTimestamp (t : Nat) : PyStr :=
  showNat t

/-- Rendering of an Int for the f-string interpolations of the exporters. -/
def showInt (n : Int) : PyStr :=
  (toString n).toList

/-- Rendering of a float quantity inside the exporters' f-strings.  Python
prints the float repr; this model prints the exact rational (with a ".0"
suffix for whole numbers, as Python does).  No claim here depends on the
digits, only on where the text is placed. -/
def pyShowQuantity (q : Rat) : PyStr :=
  if q.den = 1 then (toString q.num).toList ++ (".0").toList
  else (toString q).toList

/-- Python truthiness of an optional int field (None and 0 are falsy), used
by `if recipe.prep_time:` and friends. -/
def optIntTruthy : Option Int → Bool
  | none => false
  | some n => !(n = 0)

/-- Python truthiness of an optional string field (None and "" are falsy). -/
def optStrTruthy : Option PyStr → Bool
  | none => false
  | some s => !(s.isEmpty)

/-- Dictionary-key order of `get_items_by_category` style grouping: the
categories in order of first appearance (Python dict preserves insertion
order). -/
def firstSeenCategories (cats : List PyStr) : List PyStr :=
  cats.foldl (fun acc c => if acc.contains c then acc else acc ++ [c]) []

/-- Sort-key relation on shopping items: `key=lambda x: x.name.lower()`. -/
def shoppingItemKeyLe (a b : ShoppingItem) : Prop :=
  pyStrLe (pyLower a.name) (pyLower b.name) = true

instance : DecidableRel shoppingItemKeyLe :=
  fun a b => instDecidableEqBool (pyStrLe (pyLower a.name) (pyLower b.name)) true

/-- Sort-key relation on recipe ingredients: `key=lambda x: x.name.lower()`. -/
def ingredientKeyLe (a b : RecipeIngredient) : Prop :=
  pyStrLe (pyLower a.name) (pyLower b.name) = true

instance : DecidableRel ingredientKeyLe :=
  fun a b => instDecidableEqBool (pyStrLe (pyLower a.name) (pyLower b.name)) true

/-- Key order on category names used by `sorted(items_by_category.items())`
(tuples compare by their first component; the keys are distinct). -/
def categoryLe (a b : PyStr) : Prop :=
  pyStrLe a b = true

instance : DecidableRel categoryLe :=
  fun a b => instDecidableEqBool (pyStrLe a b) true

/-- Items of one category group of export_to_markdown, in list order (the
grouping loop appends each item to its category's bucket). -/
def slGroupItems (sl : ShoppingList) (c : PyStr) : List ShoppingItem :=
  sl.items.filter (fun it => it.category == c)

/-- Category keys of export_to_markdown in rendered order: first-appearance
dict order, then sorted. -/
def slSortedCats (sl : ShoppingList) : List PyStr :=
  List.insertionSort categoryLe (firstSeenCategories (sl.items.map (fun it => it.category)))

/-- One bullet line of export_to_markdown: checkbox, name, quantity when
greater than one, truthy notes. -/
def shoppingItemLine (it : ShoppingItem) : PyStr :=
  ("- [").toList ++ (if it.purchased then ['✓'] else [' ']) ++ ("] ").toList ++ it.name ++
  (if 1 < it.quantity then (" (").toList ++ pyShowQuantity it.quantity ++ (")").toList else []) ++
  (match it.notes with
   | some n => if n ≠ [] then (" - ").toList ++ n else []
   | none => []) ++
  ['\n']

/-- One category block of export_to_markdown: the "## category" header, the
items of the group sorted by lowercased name (Python's sorted is the unique
stable sort by that key, matched here by insertion sort), a blank line. -/
def slCategoryBlock (sl : ShoppingList) (c : PyStr) : PyStr :=
  ("## ").toList ++ c ++ ['\n'] ++
  (((List.insertionSort shoppingItemKeyLe (slGroupItems sl c)).map shoppingItemLine).flatten) ++
  ['\n']

/-- utils.export_to_markdown: title, created/updated stamps, then one block
per category in sorted key order. -/
def export_to_markdown (sl : ShoppingList) : PyStr :=
  ("# ").toList ++ sl.name ++ ("\n\n").toList ++
  ("*Created: ").toList ++ showTimestamp sl.created_at ++ ("*\n").toList ++
  ("*Last Updated: ").toList ++ showTimestamp sl.updated_at ++ ("*\n\n").toList ++
  (((slSortedCats sl).map (slCategoryBlock sl)).flatten)

/-- Ingredients of one category group of export_recipe_to_markdown
(Recipe.get_ingredients_by_category buckets in list order). -/
def recipeGroupIngredients (r : Recipe) (c : PyStr) : List RecipeIngredient :=
  r.ingredients.filter (fun ing => ing.category == c)

/-- Category keys of export_recipe_to_markdown in rendered order. -/
def recipeSortedCats (r : Recipe) : List PyStr :=
  List.insertionSort categoryLe (firstSeenCategories (r.ingredients.map (fun ing => ing.category)))

/-- One ingredient line of export_recipe_to_markdown. -/
def ingredientLine (ing : RecipeIngredient) : PyStr :=
  ("- ").toList ++ ing.name ++ (" (").toList ++ ing.quantity ++ (")").toList ++
  (match ing.notes with
   | some n => if n ≠ [] then (" - *").toList ++ n ++ ("*").toList else []
   | none => []) ++
  ['\n']

/-- One category block of the recipe exporter: "### category", the sorted
group, a blank line. -/
def recipeCategoryBlock (r : Recipe) (c : PyStr) : PyStr :=
  ("### ").toList ++ c ++ ("\n\n").toList ++
  (((List.insertionSort ingredientKeyLe (recipeGroupIngredients r c)).map ingredientLine).flatten) ++
  ['\n']

/-- Numbered instruction lines of the recipe exporter, starting at 1. -/
def numberedInstructions : Nat → List PyStr → PyStr
  | _, [] => []
  | i, x :: xs => showNat i ++ (". ").toList ++ x ++ ['\n'] ++ numberedInstructions (i + 1) xs

/-- Details section of export_recipe_to_markdown: prep/cook/total lines only
when truthy (so a zero time is omitted), servings always. -/
def recipeDetails (r : Recipe) : PyStr :=
  ("## Details\n\n").toList ++
  (match r.prep_time with
   | some p => if !(p = 0) then ("- **Prep Time:** ").toList ++ showInt p ++ (" minutes\n").toList else []
   | none => []) ++
  (match r.cook_time with
   | some c => if !(c = 0) then ("- **Cook Time:** ").toList ++ showInt c ++ (" minutes\n").toList else []
   | none => []) ++
  (if optIntTruthy r.get_total_time then
     (match r.get_total_time with
      | some tt => ("- **Total Time:** ").toList ++ showInt tt ++ (" minutes\n").toList
      | none => [])
   else []) ++
  ("- **Servings:** ").toList ++ showInt r.servings ++ ("\n\n").toList

/-- utils.export_recipe_to_markdown: title, italic description when truthy,
details, ingredients grouped by category, numbered instructions, truthy
notes, metadata stamps. -/
def export_recipe_to_markdown (r : Recipe) : PyStr :=
  ("# ").toList ++ r.name ++ ("\n\n").toList ++
  (match r.description with
   | some d => if d ≠ [] then ('*' :: d) ++ ("*\n\n").toList else []
   | none => []) ++
  recipeDetails r ++
  ("## Ingredients\n\n").toList ++
  (((recipeSortedCats r).map (recipeCategoryBlock r)).flatten) ++
  ("## Instructions\n\n").toList ++
  numberedInstructions 1 r.instructions ++ ['\n'] ++
  (match r.notes with
   | some n => if n ≠ [] then ("## Notes\n\n").toList ++ n ++ ("\n\n").toList else []
   | none => []) ++
  ("---\n").toList ++
  ("*Created: ").toList ++ showTimestamp r.created_at ++ ("*\n").toList ++
  ("*Last Updated: ").toList ++ showTimestamp r.updated_at ++ ("*\n").toList

/-- Example recipe with both times present. -/
def exRecipeBoth : Recipe :=
  { name := ("Stew").toList
    ingredients := []
    instructions := []
    prep_time := some 30
    cook_time := some 45
    servings := 4
    description := none
    notes := none
    created_at := 0
    updated_at := 0 }

/-- Example recipe with the prep time missing. -/
def exRecipeMissing : Recipe :=
  { exRecipeBoth with prep_time := none }

/-- C9: Recipe.get_total_time returns None when prep_time or cook_time is
None (also when only one of them is), and prep_time + cook_time otherwise. -/
theorem get_total_time_spec (r : Recipe) :
    ((r.prep_time = none ∨ r.cook_time = none) → r.get_total_time = none) ∧
    (∀ p c : Int, r.prep_time = some p → r.cook_time = some c →
      r.get_total_time = some (p + c)) := by
  constructor
  · intro h
    rcases h with h | h <;>
      cases hp : r.prep_time <;> cases hc : r.cook_time <;>
        simp_all [Recipe.get_total_time]
  · intro p c hp hc
    simp [Recipe.get_total_time, hp, hc]

/-- Witness for C9 at two concrete recipes. -/
theorem get_total_time_spec_witness :
    exRecipeBoth.get_total_time = some (30 + 45) ∧ exRecipeMissing.get_total_time = none :=
  ⟨(get_total_time_spec exRecipeBoth).2 30 45 rfl rfl,
   (get_total_time_spec exRecipeMissing).1 (Or.inl rfl)⟩

/-- Failure of removeFirstMatch means no item matches. -/
theorem removeFirstMatch_eq_none (target : PyStr) (l : List ShoppingItem) :
    removeFirstMatch target l = none ↔ ∀ it ∈ l, itemNameMatches target it = false := by
  induction l with
  | nil => simp [removeFirstMatch]
  | cons it rest ih =>
    by_cases h : itemNameMatches target it = true
    · simp [removeFirstMatch, h]
    · simp only [Bool.not_eq_true] at h
      simp [removeFirstMatch, h, ih]

/-- removeFirstMatch erases exactly the first matching item. -/
theorem removeFirstMatch_append (target : PyStr) (pre post : List ShoppingItem)
    (x : ShoppingItem) (hpre : ∀ y ∈ pre, itemNameMatches target y = false)
    (hx : itemNameMatches target x = true) :
    removeFirstMatch target (pre ++ x :: post) = some (pre ++ post) := by
  induction pre with
  | nil => simp [removeFirstMatch, hx]
  | cons y ys ih =>
    have hy := hpre y (by simp)
    simp [removeFirstMatch, hy, ih (fun z hz => hpre z (by simp [hz]))]

/-- C10: ShoppingList.remove_item matches case-insensitively; when a match
exists it removes exactly the first matching item and returns True,
otherwise it returns False and leaves the list unchanged. -/
theorem remove_item_spec (sl : ShoppingList) (target : PyStr) (now : Nat) :
    ((sl.remove_item target now).2 = true ↔
      ∃ it ∈ sl.items, itemNameMatches target it = true) ∧
    (∀ pre x post, sl.items = pre ++ x :: post →
      (∀ y ∈ pre, itemNameMatches target y = false) →
      itemNameMatches target x = true →
      ((sl.remove_item target now).1.items = pre ++ post ∧
        (sl.remove_item target now).2 = true)) ∧
    ((∀ it ∈ sl.items, itemNameMatches target it = false) →
      sl.remove_item target now = (sl, false)) := by
  refine ⟨?_, ?_, ?_⟩
  · cases hm : removeFirstMatch target sl.items with
    | none =>
      simp only [ShoppingList.remove_item, hm]
      have hall := (removeFirstMatch_eq_none target sl.items).mp hm
      constructor
      · intro hfalse
        exact absurd hfalse (by simp)
      · rintro ⟨it, hit, hmatch⟩
        rw [hall it hit] at hmatch
        exact absurd hmatch (by simp)
    | some l' =>
      simp only [ShoppingList.remove_item, hm]
      constructor
      · intro _
        by_contra hno
        push_neg at hno
        have : removeFirstMatch target sl.items = none :=
          (removeFirstMatch_eq_none target sl.items).mpr
            (fun it hit => by
              have := hno it hit
              simpa using this)
        simp [this] at hm
      · intro _
        trivial
  · intro pre x post hitems hpre hx
    have hm : removeFirstMatch target sl.items = some (pre ++ post) := by
      rw [hitems]
      exact removeFirstMatch_append target pre post x hpre hx
    simp [ShoppingList.remove_item, hm]
  · intro hall
    have hm : removeFirstMatch target sl.items = none :=
      (removeFirstMatch_eq_none target sl.items).mpr hall
    simp [ShoppingList.remove_item, hm]

/-- Example items for the remove_item witness. -/
def exApple : ShoppingItem :=
  { name := ("Apple").toList
    quantity := 1
    quantity_unit_of_measure := ("pieces").toList
    category := ("Produce").toList
    purchased := false
    notes := none
    created_at := 0
    updated_at := 0 }

/-- Example item whose name matches "MILK" case-insensitively. -/
def exMilk : ShoppingItem :=
  { exApple with name := ("Milk").toList, category := ("Dairy").toList }

/-- Example list for the remove_item witness. -/
def exRemoveList : ShoppingList :=
  { name := ("G").toList
    items := [exApple, exMilk]
    created_at := 0
    updated_at := 0 }

/-- Witness for C10: removing "MILK" from [Apple, Milk] erases exactly the
Milk item and reports success. -/
theorem remove_item_spec_witness :
    (exRemoveList.remove_item (("MILK").toList) 0).1.items = [exApple] ∧
    (exRemoveList.remove_item (("MILK").toList) 0).2 = true :=
  (remove_item_spec exRemoveList (("MILK").toList) 0).2.1 [exApple] exMilk []
    (by decide) (by decide) (by decide)

/-- Every quantity Recipe.to_shopping_list computes is at least one: each
branch either clamps with max(1, round(...)) or falls back to 1. -/
theorem ingredientShoppingQuantity_ge_one (q : PyStr) (v : Rat)
    (h : ingredientShoppingQuantity q = some v) : 1 ≤ v := by
  have hmax : ∀ r : Int, (1 : Rat) ≤ ((max 1 r : Int) : Rat) := by
    intro r
    have h1 : (1 : Int) ≤ max 1 r := le_max_left 1 r
    exact_mod_cast h1
  unfold ingredientShoppingQuantity at h
  split at h
  · simp only [Option.some.injEq] at h
    subst h
    exact le_refl 1
  · split at h
    · split at h
      · split at h
        · split at h
          · exact Option.noConfusion h
          · simp only [Option.some.injEq] at h
            subst h
            exact hmax _
        · simp only [Option.some.injEq] at h
          subst h
          exact le_refl 1
      · simp only [Option.some.injEq] at h
        subst h
        exact le_refl 1
    · split at h
      · simp only [Option.some.injEq] at h
        subst h
        exact hmax _
      · simp only [Option.some.injEq] at h
        subst h
        exact le_refl 1

/-- Every item the loop of Recipe.to_shopping_list produces has quantity at
least one. -/
theorem shoppingItemsOfIngredients_quantity_ge_one (now : Nat)
    (ings : List RecipeIngredient) (its : List ShoppingItem)
    (h : shoppingItemsOfIngredients now ings = some its) :
    ∀ it ∈ its, 1 ≤ it.quantity := by
  induction ings generalizing its with
  | nil =>
    simp only [shoppingItemsOfIngredients] at h
    injection h with h'
    rw [← h']
    simp
  | cons ing rest ih =>
    simp only [shoppingItemsOfIngredients] at h
    cases hq : ingredientShoppingQuantity ing.quantity with
    | none => rw [hq] at h; simp at h
    | some v =>
      rw [hq] at h
      cases hr : shoppingItemsOfIngredients now rest with
      | none => rw [hr] at h; simp at h
      | some tail =>
        rw [hr] at h
        simp only [Option.map_some] at h
        injection h with h'
        intro it hit
        rw [← h'] at hit
        rcases List.mem_cons.mp hit with hhead | htail
        · rw [hhead]
          exact ingredientShoppingQuantity_ge_one _ _ hq
        · exact ih tail hr it htail

/-- C6: quantities the program constructs are positive: every item produced
by Recipe.to_shopping_list has quantity at least 1, and every quantity the
create_list input loop accepts is strictly greater than 0. -/
theorem constructed_quantities_positive :
    (∀ (r : Recipe) (now : Nat) (l : ShoppingList), r.to_shopping_list now = some l →
      ∀ it ∈ l.items, 1 ≤ it.quantity) ∧
    (∀ (s : PyStr) (q : Rat), acceptedQuantityInput s = some q → 0 < q) := by
  constructor
  · intro r now l h it hit
    unfold Recipe.to_shopping_list at h
    cases hi : shoppingItemsOfIngredients now r.ingredients with
    | none => rw [hi] at h; simp at h
    | some its =>
      rw [hi] at h
      simp only [Option.map_some'] at h
      injection h with h'
      rw [← h'] at hit
      exact shoppingItemsOfIngredients_quantity_ge_one now r.ingredients its hi it hit
  · intro s q h
    unfold acceptedQuantityInput at h
    split at h
    · split at h
      · simp only [Option.some.injEq] at h
        subst h
        assumption
      · exact Option.noConfusion h
    · exact Option.noConfusion h

/-- Example ingredient for the C6 witness. -/
def exIngredientFlour : RecipeIngredient :=
  { name := ("flour").toList
    quantity := ("2 cups").toList
    category := ("Pantry").toList
    notes := none }

/-- Example recipe for the C6 witness. -/
def exRecipeC6 : Recipe :=
  { exRecipeBoth with name := ("Bread").toList, ingredients := [exIngredientFlour] }

/-- Item exRecipeC6.to_shopping_list produces for flour. -/
def exConvItem : ShoppingItem :=
  { name := ("flour").toList
    quantity := 2
    quantity_unit_of_measure := ("pieces").toList
    category := ("Pantry").toList
    purchased := false
    notes := some (("2 cups").toList)
    created_at := 0
    updated_at := 0 }

/-- Shopping list exRecipeC6.to_shopping_list produces. -/
def exConvList : ShoppingList :=
  { name := ("Bread ingredients").toList
    items := [exConvItem]
    created_at := 0
    updated_at := 0 }

/-- Witness for C6 at a concrete recipe and a concrete accepted input. -/
theorem constructed_quantities_positive_witness :
    (1 : Rat) ≤ exConvItem.quantity ∧ (0 : Rat) < mkRat 5 2 :=
  ⟨constructed_quantities_positive.1 exRecipeC6 0 exConvList (by decide) exConvItem (by decide),
   constructed_quantities_positive.2 (("2.5").toList) (mkRat 5 2) (by decide)⟩

/-- Shopping item carrying a non-default unit of measure, mirroring the
item of test_db.py. -/
def exItemKg : ShoppingItem :=
  { name := ("Test Item").toList
    quantity := mkRat 5 2
    quantity_unit_of_measure := ("kg").toList
    category := ("Test Category").toList
    purchased := false
    notes := none
    created_at := 0
    updated_at := 0 }

/-- Shopping list holding the kg item. -/
def exListKg : ShoppingList :=
  { name := ("Test List").toList
    items := [exItemKg]
    created_at := 0
    updated_at := 0 }

/-- C1: evaluation of save_shopping_list followed by load_shopping_list at a
list whose item has unit "kg": the loaded list agrees with the saved one on
every field except the unit, which comes back as the default "pieces", so
the save/load round trip does not preserve quantity_unit_of_measure. -/
theorem save_then_load_resets_unit_to_pieces :
    load_shopping_list (save_shopping_list [] exListKg).1 (("Test List").toList) =
      some { exListKg with
              items := [{ exItemKg with quantity_unit_of_measure := ("pieces").toList }] } ∧
    load_shopping_list (save_shopping_list [] exListKg).1 (("Test List").toList) ≠
      some exListKg := by
  constructor
  · decide
  · decide

/-- C4 counterexample: deleting a name that is not in the store does not
return False (and prints no failure): both delete_list of src/utils.py and
delete_shopping_list of src/database.py return True on an empty store. -/
theorem delete_nonexistent_returns_true_counterexample :
    ¬((delete_list [] (("ghost").toList)).2 = false) ∧
    ¬((delete_shopping_list [] (("ghost").toList)).2 = false) := by
  constructor
  · decide
  · decide

/-- C4 (amended): deleting a non-existent name never raises, returns True,
and leaves the store unchanged, for database.delete_shopping_list and for
utils.delete_list. -/
theorem delete_nonexistent_amended :
    (∀ (db : ShoppingDb) (name : PyStr), (∀ r ∈ db, r.name ≠ name) →
      delete_shopping_list db name = (db, true)) ∧
    (∀ (fs : ListsFile) (name : PyStr), (∀ r ∈ fs, r.name ≠ name) →
      delete_list fs name = (fs, true)) := by
  constructor
  · intro db name h
    unfold delete_shopping_list
    have : db.filter (fun r => !(r.name == name)) = db := by
      apply List.filter_eq_self.mpr
      intro r hr
      simpa using h r hr
    rw [this]
  · intro fs name h
    unfold delete_list save_all_lists load_all_lists
    have h1 : (fs.map decodeList).filter (fun l => !(l.name == name)) =
        (fs.filter (fun r => !(r.name == name))).map decodeList := by
      rw [List.filter_map]
      rfl
    have h2 : fs.filter (fun r => !(r.name == name)) = fs := by
      apply List.filter_eq_self.mpr
      intro r hr
      simpa using h r hr
    have h3 : ∀ l : List UtilListRecord, (l.map decodeList).map encodeList = l := by
      intro l
      rw [List.map_map]
      have he : ∀ rec : UtilListRecord, encodeList (decodeList rec) = rec := by
        intro rec
        cases rec with
        | mk n its c u =>
          simp only [encodeList, decodeList, List.map_map]
          congr 1
          have hi : ∀ it : UtilItemRecord, encodeItem (decodeItem it) = it := by
            intro it
            cases it
            rfl
          calc its.map (encodeItem ∘ decodeItem) = its.map id := List.map_congr_left (fun a _ => hi a)
            _ = its := List.map_id its
      calc l.map (encodeList ∘ decodeList) = l.map id := List.map_congr_left (fun a _ => he a)
        _ = l := List.map_id l
    rw [h1, h2, h3]

/-- Witness for the amended C4 at a concrete empty store. -/
theorem delete_nonexistent_amended_witness :
    delete_shopping_list [] (("ghost").toList) = ([], true) ∧
    delete_list [] (("ghost").toList) = ([], true) :=
  ⟨delete_nonexistent_amended.1 [] (("ghost").toList) (by simp),
   delete_nonexistent_amended.2 [] (("ghost").toList) (by simp)⟩

/-- replaceFirstByName fails exactly when no stored list carries the name. -/
theorem replaceFirstByName_eq_none (sl : ShoppingList) (l : List ShoppingList) :
    replaceFirstByName sl l = none ↔ ∀ x ∈ l, (x.name == sl.name) = false := by
  induction l with
  | nil => simp [replaceFirstByName]
  | cons x rest ih =>
    by_cases h : (x.name == sl.name) = true
    · simp [replaceFirstByName, h]
      intro hcon
      exact absurd (eq_of_beq h) hcon
    · simp only [Bool.not_eq_true] at h
      simp [replaceFirstByName, h, ih]
      exact fun _ => by simpa using h

/-- A successful replaceFirstByName rewrites exactly the first list with the
name. -/
theorem replaceFirstByName_eq_some (sl : ShoppingList) (l l' : List ShoppingList)
    (h : replaceFirstByName sl l = some l') :
    ∃ pre x post, l = pre ++ x :: post ∧ (∀ y ∈ pre, (y.name == sl.name) = false) ∧
      (x.name == sl.name) = true ∧ l' = pre ++ sl :: post := by
  induction l generalizing l' with
  | nil => exact Option.noConfusion h
  | cons x rest ih =>
    by_cases hx : (x.name == sl.name) = true
    · rw [replaceFirstByName, if_pos hx] at h
      simp only [Option.some.injEq] at h
      exact ⟨[], x, rest, rfl, by simp, hx, h.symm⟩
    · rw [replaceFirstByName, if_neg (by simp [hx])] at h
      cases hr : replaceFirstByName sl rest with
      | none => rw [hr] at h; exact Option.noConfusion h
      | some r' =>
        rw [hr] at h
        simp only [Option.map_some', Option.some.injEq] at h
        obtain ⟨pre, y, post, he, hpre, hy, hr'⟩ := ih r' hr
        refine ⟨x :: pre, y, post, by rw [he, List.cons_append], ?_, hy, ?_⟩
        · intro z hz
          rcases List.mem_cons.mp hz with hz | hz
          · rw [hz]; simpa using hx
          · exact hpre z hz
        · rw [← h, hr', List.cons_append]

/-- C5 (after amendment is not needed; as stated): saving is an upsert keyed
by unique name.  After database.save_shopping_list the store holds exactly
one row with the saved name, carrying the projection of the last save;
after utils.save_list, on a file whose list names are unique, the file
holds exactly one record with the saved name, carrying the serialisation of
the last save. -/
theorem filter_name_map_encode (ls : List ShoppingList) (n : PyStr) :
    (ls.map encodeList).filter (fun r => r.name == n) =
      (ls.filter (fun l => l.name == n)).map encodeList := by
  induction ls with
  | nil => rfl
  | cons x rest ih =>
    by_cases h : (x.name == n) = true
    · simp [encodeList, h, ih]
    · simp only [Bool.not_eq_true] at h
      simp [encodeList, h, ih]

/-- C5: saving is an upsert keyed by unique name.  After
database.save_shopping_list the store holds exactly one row with the saved
name, carrying the projection of the last save; after utils.save_list, on a
file whose list names are unique, the file holds exactly one record with
the saved name, carrying the serialisation of the last save. -/
theorem save_is_upsert_by_name :
    (∀ (db : ShoppingDb) (sl : ShoppingList),
      (save_shopping_list db sl).1.filter (fun r => r.name == sl.name) =
        [dbRowOfShoppingList sl]) ∧
    (∀ (fs : ListsFile) (sl : ShoppingList),
      ((load_all_lists fs).map (fun l => l.name)).Nodup →
      (save_list fs sl).1.filter (fun r => r.name == sl.name) = [encodeList sl]) := by
  constructor
  · intro db sl
    unfold save_shopping_list
    rw [List.filter_append]
    have h1 : (db.filter (fun r => !(r.name == sl.name))).filter
        (fun r => r.name == sl.name) = [] := by
      rw [List.filter_filter]
      apply List.filter_eq_nil_iff.mpr
      intro r _
      simp
    have h2 : List.filter (fun r => r.name == sl.name) [dbRowOfShoppingList sl] =
        [dbRowOfShoppingList sl] := by
      simp [dbRowOfShoppingList]
    rw [h1, h2, List.nil_append]
  · intro fs sl hnd
    unfold save_list
    cases hrep : replaceFirstByName sl (load_all_lists fs) with
    | none =>
      simp only [hrep, save_all_lists]
      rw [filter_name_map_encode]
      have hall := (replaceFirstByName_eq_none sl (load_all_lists fs)).mp hrep
      have hfl : (load_all_lists fs ++ [sl]).filter (fun l => l.name == sl.name) = [sl] := by
        rw [List.filter_append]
        have hnil : (load_all_lists fs).filter (fun l => l.name == sl.name) = [] :=
          List.filter_eq_nil_iff.mpr (fun z hz => by simp [hall z hz])
        rw [hnil, List.nil_append]
        simp
      rw [hfl]
      rfl
    | some l' =>
      simp only [hrep, save_all_lists]
      obtain ⟨pre, x, post, he, hpre, hx, hl'⟩ :=
        replaceFirstByName_eq_some sl (load_all_lists fs) l' hrep
      have hxname : x.name = sl.name := eq_of_beq hx
      have hpost : ∀ y ∈ post, (y.name == sl.name) = false := by
        intro y hy
        have hmap : ((load_all_lists fs).map (fun l => l.name)) =
            pre.map (fun l => l.name) ++ x.name :: post.map (fun l => l.name) := by
          rw [he]; simp
        rw [hmap] at hnd
        have hnd2 := hnd.of_append_right
        rw [List.nodup_cons] at hnd2
        have hxnot : x.name ∉ post.map (fun l => l.name) := hnd2.1
        have hyne : y.name ≠ sl.name := by
          intro hcon
          exact hxnot (by
            rw [hxname, ← hcon]
            exact List.mem_map_of_mem (fun l => l.name) hy)
        simp [hyne]
      rw [filter_name_map_encode, hl']
      have hfl : (pre ++ sl :: post).filter (fun l => l.name == sl.name) = [sl] := by
        rw [List.filter_append]
        have hnil1 : pre.filter (fun l => l.name == sl.name) = [] :=
          List.filter_eq_nil_iff.mpr (fun z hz => by simp [hpre z hz])
        have hnil2 : post.filter (fun l => l.name == sl.name) = [] :=
          List.filter_eq_nil_iff.mpr (fun z hz => by simp [hpost z hz])
        rw [hnil1, List.nil_append]
        simp [hnil2]
      rw [hfl]
      rfl

/-- Witness for C5: saving a list over a file that already stores a record
with the same name leaves exactly that one record, holding the new save. -/
theorem save_is_upsert_by_name_witness :
    (save_list [encodeList exListKg] exListKg).1.filter
      (fun r => r.name == exListKg.name) = [encodeList exListKg] :=
  save_is_upsert_by_name.2 [encodeList exListKg] exListKg (by decide)

/-- Effect of one loop iteration on the accumulating fields: ingredients and
instructions grow by the section's contribution, and the three found flags
absorb the section's classification. -/
theorem parseStep_fields (st : ParseState) (sec : PyStr) :
    (parseStep st sec).ingredients = st.ingredients ++ sectionIngredients sec ∧
    (parseStep st sec).instructions = st.instructions ++ sectionInstructions sec ∧
    (parseStep st sec).fDesc = (st.fDesc || isDescriptionSection sec) ∧
    (parseStep st sec).fIng = (st.fIng || !(sectionIngredients sec).isEmpty) ∧
    (parseStep st sec).fInstr = (st.fInstr || !(sectionInstructions sec).isEmpty) := by
  unfold parseStep sectionIngredients sectionInstructions isDescriptionSection
  by_cases hs : pyStrip sec = []
  · simp [hs]
  · cases hcl : classifySection (pyStrip sec) with
    | descriptionK => simp [hs, hcl]
    | prepTimeK =>
      cases hi : pyIntOfDigitFilter (pyStrip (afterFirstColon (pyStrip sec))) <;>
        simp [hs, hcl, hi]
    | cookTimeK =>
      cases hi : pyIntOfDigitFilter (pyStrip (afterFirstColon (pyStrip sec))) <;>
        simp [hs, hcl, hi]
    | servingsK =>
      cases hi : pyIntOfDigitFilter (pyStrip (afterFirstColon (pyStrip sec))) <;>
        simp [hs, hcl, hi]
    | ingredientsK => simp [hs, hcl]
    | instructionsK => simp [hs, hcl]
    | notesK => simp [hs, hcl]
    | otherK => simp [hs, hcl]

/-- Accumulated effect of the whole section loop, by induction over the
sections. -/
theorem parseStep_foldl (secs : List PyStr) (st : ParseState) :
    (secs.foldl parseStep st).ingredients =
      st.ingredients ++ ((secs.map sectionIngredients).flatten) ∧
    (secs.foldl parseStep st).instructions =
      st.instructions ++ ((secs.map sectionInstructions).flatten) ∧
    (secs.foldl parseStep st).fDesc = (st.fDesc || secs.any isDescriptionSection) ∧
    (secs.foldl parseStep st).fIng =
      (st.fIng || secs.any (fun s => !(sectionIngredients s).isEmpty)) ∧
    (secs.foldl parseStep st).fInstr =
      (st.fInstr || secs.any (fun s => !(sectionInstructions s).isEmpty)) := by
  induction secs generalizing st with
  | nil => simp
  | cons sec rest ih =>
    obtain ⟨k1, k2, k3, k4, k5⟩ := parseStep_fields st sec
    obtain ⟨h1, h2, h3, h4, h5⟩ := ih (parseStep st sec)
    refine ⟨?_, ?_, ?_, ?_, ?_⟩ <;>
      simp [h1, h2, h3, h4, h5, k1, k2, k3, k4, k5, Bool.or_assoc]

/-- A section is classified as an instructions section only if its lowered
text contains "instructions:". -/
theorem classify_instructionsK_contains (s : PyStr)
    (h : classifySection s = SecKind.instructionsK) :
    containsSub (("instructions:").toList) (pyLower s) = true := by
  simp only [classifySection] at h
  split_ifs at h
  simp_all

/-- Emptiness of a flattened map matches the negated any-nonempty test. -/
theorem any_nonempty_eq_not_flatten_isEmpty {α : Type} (f : PyStr → List α) (l : List PyStr) :
    l.any (fun s => !(f s).isEmpty) = !((l.map f).flatten.isEmpty) := by
  induction l with
  | nil => rfl
  | cons a rest ih => cases hfa : f a <;> simp [hfa, ih]

/-- C2: the recipe-response parser of generate_recipe_from_name fails
exactly when the description section is missing, zero valid ingredient
lines were parsed, or zero non-empty instruction lines were parsed; in
particular any response with no "instructions:" section text parses to
None. -/
theorem generate_recipe_from_name_failure_iff (meal : PyStr) (now : Nat) (t : PyStr) :
    (generate_recipe_from_name_parse meal now t = none ↔
      (hasDescriptionSection t = false ∨ parsedIngredients t = [] ∨
        parsedInstructions t = [])) ∧
    (hasInstructionsHeader t = false → generate_recipe_from_name_parse meal now t = none) := by
  obtain ⟨h1, h2, h3, h4, h5⟩ := parseStep_foldl (responseSections t) initParseState
  have e1 : ((responseSections t).foldl parseStep initParseState).fDesc =
      hasDescriptionSection t := by
    rw [h3]; simp [initParseState, hasDescriptionSection]
  have e2 : ((responseSections t).foldl parseStep initParseState).ingredients =
      parsedIngredients t := by
    rw [h1]; simp [initParseState, parsedIngredients]
  have e3 : ((responseSections t).foldl parseStep initParseState).instructions =
      parsedInstructions t := by
    rw [h2]; simp [initParseState, parsedInstructions]
  have e4 : ((responseSections t).foldl parseStep initParseState).fIng =
      !((parsedIngredients t).isEmpty) := by
    rw [h4]; simp [initParseState]
    rw [any_nonempty_eq_not_flatten_isEmpty]
    rfl
  have e5 : ((responseSections t).foldl parseStep initParseState).fInstr =
      !((parsedInstructions t).isEmpty) := by
    rw [h5]; simp [initParseState]
    rw [any_nonempty_eq_not_flatten_isEmpty]
    rfl
  have hiff : generate_recipe_from_name_parse meal now t = none ↔
      (hasDescriptionSection t = false ∨ parsedIngredients t = [] ∨
        parsedInstructions t = []) := by
    simp only [generate_recipe_from_name_parse]
    rw [e1, e2, e3, e4, e5]
    by_cases hA : hasDescriptionSection t = true <;>
      by_cases hB : parsedIngredients t = [] <;>
        by_cases hC : parsedInstructions t = [] <;>
          simp [hA, hB, hC, List.isEmpty_iff, Bool.not_eq_true]
  refine ⟨hiff, ?_⟩
  intro hni
  apply hiff.mpr
  right; right
  unfold parsedInstructions
  apply List.flatten_eq_nil_iff.mpr
  intro l hl
  rcases List.mem_map.mp hl with ⟨sec, hsec, hfl⟩
  rw [← hfl]
  unfold sectionInstructions
  by_cases hs : pyStrip sec = []
  · simp [hs]
  · have hcs : containsSub (("instructions:").toList) (pyLower (pyStrip sec)) = false := by
      have := List.any_eq_false.mp hni sec hsec
      simpa using this
    have hne : classifySection (pyStrip sec) ≠ SecKind.instructionsK := by
      intro hcl
      rw [classify_instructionsK_contains (pyStrip sec) hcl] at hcs
      exact Bool.noConfusion hcs
    simp [hs, hne]

/-- Response text whose sections carry no "instructions:" header. -/
def exNoInstructions : PyStr :=
  ("Description:\nGood food.\n\nIngredients:\n\x7b\"name\": \"egg\", \"quantity\": \"2\"\x7d").toList

/-- Witness for C2: a concrete response with no instructions section parses
to None. -/
theorem generate_recipe_from_name_failure_iff_witness :
    generate_recipe_from_name_parse (("Pasta").toList) 0 exNoInstructions = none :=
  (generate_recipe_from_name_failure_iff (("Pasta").toList) 0 exNoInstructions).2 (by decide)

/-- Sections not classified as ingredient sections contribute no
ingredients. -/
theorem sectionIngredients_eq_nil_of_ne (sec : PyStr)
    (h : classifySection (pyStrip sec) ≠ SecKind.ingredientsK) :
    sectionIngredients sec = [] := by
  unfold sectionIngredients
  by_cases hs : pyStrip sec = []
  · simp [hs]
  · simp [hs, h]

/-- Sections not classified as instruction sections contribute no
instructions. -/
theorem sectionInstructions_eq_nil_of_ne (sec : PyStr)
    (h : classifySection (pyStrip sec) ≠ SecKind.instructionsK) :
    sectionInstructions sec = [] := by
  unfold sectionInstructions
  by_cases hs : pyStrip sec = []
  · simp [hs]
  · simp [hs, h]

/-- Sections that strip to nothing can be dropped before flattening the
per-section contributions. -/
theorem flatten_map_filter_strip {α : Type} (f : PyStr → List α)
    (hf : ∀ s, pyStrip s = [] → f s = []) (l : List PyStr) :
    (l.map f).flatten = ((l.filter (fun s => !(pyStrip s).isEmpty)).map f).flatten := by
  induction l with
  | nil => rfl
  | cons a rest ih =>
    by_cases hs : pyStrip a = []
    · simp [List.filter_cons, hs, hf a hs, ih]
    · simp [List.filter_cons, hs, ih]

/-- A section recognised as the description section is classified so. -/
theorem isDescriptionSection_classify (sec : PyStr)
    (h : isDescriptionSection sec = true) :
    classifySection (pyStrip sec) = SecKind.descriptionK := by
  unfold isDescriptionSection at h
  by_cases hs : pyStrip sec = []
  · simp [hs] at h
  · simp [hs] at h
    exact h

/-- When the three required pieces are present the parser succeeds and the
recipe holds exactly the accumulated ingredients and instructions. -/
theorem parse_result_spec (meal : PyStr) (now : Nat) (t : PyStr)
    (hd : hasDescriptionSection t = true)
    (hi : parsedIngredients t ≠ [])
    (hn : parsedInstructions t ≠ []) :
    ∃ r, generate_recipe_from_name_parse meal now t = some r ∧
      r.ingredients = parsedIngredients t ∧ r.instructions = parsedInstructions t := by
  obtain ⟨h1, h2, h3, h4, h5⟩ := parseStep_foldl (responseSections t) initParseState
  have hi' : ((responseSections t).map sectionIngredients).flatten ≠ [] := hi
  have hn' : ((responseSections t).map sectionInstructions).flatten ≠ [] := hn
  have e1 : ((responseSections t).foldl parseStep initParseState).fDesc = true := by
    rw [h3]
    simp only [initParseState, Bool.false_or]
    exact hd
  have e4 : ((responseSections t).foldl parseStep initParseState).fIng = true := by
    rw [h4]
    simp only [initParseState, Bool.false_or]
    rw [any_nonempty_eq_not_flatten_isEmpty]
    cases hfe : ((responseSections t).map sectionIngredients).flatten with
    | nil => exact absurd hfe hi'
    | cons x xs => rfl
  have e5 : ((responseSections t).foldl parseStep initParseState).fInstr = true := by
    rw [h5]
    simp only [initParseState, Bool.false_or]
    rw [any_nonempty_eq_not_flatten_isEmpty]
    cases hfe : ((responseSections t).map sectionInstructions).flatten with
    | nil => exact absurd hfe hn'
    | cons x xs => rfl
  have ei : ((responseSections t).foldl parseStep initParseState).ingredients.isEmpty = false := by
    rw [h1]
    simp only [initParseState, List.nil_append]
    cases hfe : ((responseSections t).map sectionIngredients).flatten with
    | nil => exact absurd hfe hi'
    | cons x xs => rfl
  have en : ((responseSections t).foldl parseStep initParseState).instructions.isEmpty = false := by
    rw [h2]
    simp only [initParseState, List.nil_append]
    cases hfe : ((responseSections t).map sectionInstructions).flatten with
    | nil => exact absurd hfe hn'
    | cons x xs => rfl
  refine ⟨recipeOfState meal now ((responseSections t).foldl parseStep initParseState),
    ?_, ?_, ?_⟩
  · simp only [generate_recipe_from_name_parse]
    rw [e1, e4, e5, ei, en]
    simp
  · simp only [recipeOfState]
    rw [h1]
    simp [initParseState, parsedIngredients]
  · simp only [recipeOfState]
    rw [h2]
    simp [initParseState, parsedInstructions]

/-- Shape of the well-formed templated responses of C3: after splitting on
blank lines, exactly three nonblank sections, in order a description
section, an ingredients section with exactly 2 valid single-line ingredient
dictionaries, and an instructions section with exactly 3 numbered non-empty
lines. -/
def wellFormedThreeSection (t : PyStr) : Bool :=
  match (responseSections t).filter (fun s => !(pyStrip s).isEmpty) with
  | [a, b, c] =>
    isDescriptionSection a &&
    decide (classifySection (pyStrip b) = SecKind.ingredientsK) &&
    decide ((sectionIngredients b).length = 2) &&
    decide (classifySection (pyStrip c) = SecKind.instructionsK) &&
    decide ((sectionInstructions c).length = 3)
  | _ => false

/-- C3: every well-formed templated response with a description section, 2
valid ingredient lines and 3 numbered instruction lines parses to a recipe
with exactly 2 ingredients and exactly 3 instructions. -/
theorem wellformed_response_parses_expected_counts (meal : PyStr) (now : Nat) (t : PyStr)
    (h : wellFormedThreeSection t = true) :
    ∃ r, generate_recipe_from_name_parse meal now t = some r ∧
      r.ingredients.length = 2 ∧ r.instructions.length = 3 := by
  unfold wellFormedThreeSection at h
  split at h
  case h_2 => exact Bool.noConfusion h
  case h_1 a b c hfl =>
    simp only [Bool.and_eq_true, decide_eq_true_eq] at h
    obtain ⟨⟨⟨⟨hda, hbcl⟩, hblen⟩, hccl⟩, hclen⟩ := h
    have hacl : classifySection (pyStrip a) = SecKind.descriptionK :=
      isDescriptionSection_classify a hda
    have hin : parsedIngredients t = sectionIngredients b := by
      unfold parsedIngredients
      rw [flatten_map_filter_strip sectionIngredients
        (fun s hs => by simp [sectionIngredients, hs]), hfl]
      have ha0 : sectionIngredients a = [] :=
        sectionIngredients_eq_nil_of_ne a (by rw [hacl]; simp)
      have hc0 : sectionIngredients c = [] :=
        sectionIngredients_eq_nil_of_ne c (by rw [hccl]; simp)
      simp [ha0, hc0]
    have hinstr : parsedInstructions t = sectionInstructions c := by
      unfold parsedInstructions
      rw [flatten_map_filter_strip sectionInstructions
        (fun s hs => by simp [sectionInstructions, hs]), hfl]
      have ha0 : sectionInstructions a = [] :=
        sectionInstructions_eq_nil_of_ne a (by rw [hacl]; simp)
      have hb0 : sectionInstructions b = [] :=
        sectionInstructions_eq_nil_of_ne b (by rw [hbcl]; simp)
      simp [ha0, hb0]
    have hdesc : hasDescriptionSection t = true := by
      unfold hasDescriptionSection
      apply List.any_eq_true.mpr
      refine ⟨a, ?_, hda⟩
      have hamem : a ∈ (responseSections t).filter (fun s => !(pyStrip s).isEmpty) := by
        rw [hfl]; simp
      exact List.mem_of_mem_filter hamem
    have hlen2 : (parsedIngredients t).length = 2 := by rw [hin]; exact hblen
    have hlen3 : (parsedInstructions t).length = 3 := by rw [hinstr]; exact hclen
    obtain ⟨r, hsome, hri, hrn⟩ := parse_result_spec meal now t hdesc
      (by intro hh; rw [hh] at hlen2; exact absurd hlen2 (by simp))
      (by intro hh; rw [hh] at hlen3; exact absurd hlen3 (by simp))
    exact ⟨r, hsome, by rw [hri]; exact hlen2, by rw [hrn]; exact hlen3⟩

/-- Well-formed templated response used as the C3 witness. -/
def exThreeSection : PyStr :=
  ("Description:\nA simple dish.\n\nIngredients:\n\x7b\"name\": \"egg\", \"quantity\": \"2\"\x7d\n\x7b\"name\": \"milk\", \"quantity\": \"1 cup\"\x7d\n\nInstructions:\n1. Beat the egg.\n2. Add milk.\n3. Cook.").toList

set_option maxRecDepth 8192 in
/-- Witness for C3 at the concrete templated response. -/
theorem wellformed_response_parses_expected_counts_witness :
    ∃ r, generate_recipe_from_name_parse (("Omelette").toList) 0 exThreeSection = some r ∧
      r.ingredients.length = 2 ∧ r.instructions.length = 3 :=
  wellformed_response_parses_expected_counts (("Omelette").toList) 0 exThreeSection (by decide)

/-- C8 counterexample: the numbering strip `lstrip("0123456789. ")` also
eats content that begins with digits: the instruction stored for the line
"1. 350 degrees" is "degrees", not "350 degrees" as the claim requires. -/
theorem instruction_strip_eats_leading_digits_counterexample :
    lineInstruction (("1. 350 degrees").toList) = some (("degrees").toList) ∧
    lineInstruction (("1. 350 degrees").toList) ≠ some (("350 degrees").toList) := by
  constructor
  · decide
  · decide

/-- Removing a maximal run of numbering characters stops exactly at the
first character outside the set. -/
theorem stripInstrNumbering_append (pre rest : PyStr)
    (hpre : pre.all (fun c => numberingChars.contains c) = true)
    (hhead : rest.head?.all (fun c => !(numberingChars.contains c)) = true) :
    stripInstrNumbering (pre ++ rest) = rest := by
  induction pre with
  | nil =>
    simp only [List.nil_append]
    unfold stripInstrNumbering
    cases rest with
    | nil => rfl
    | cons c cs =>
      have hc : c ∉ numberingChars := by simpa using hhead
      simp [List.dropWhile_cons, hc]
  | cons p ps ih =>
    simp only [List.all_cons, Bool.and_eq_true] at hpre
    unfold stripInstrNumbering at ih ⊢
    rw [List.cons_append, List.dropWhile_cons, if_pos hpre.1]
    exact ih hpre.2

/-- C8 (amended): within an "Instructions" section the parser skips blank
lines and strips the maximal leading run of characters from
"0123456789. ", which removes the numbering; the remaining content is kept
intact exactly when it does not itself start with a digit, a period or a
space. -/
theorem instruction_numbering_strip_amended :
    (∀ pre rest : PyStr,
      pre.all (fun c => numberingChars.contains c) = true →
      rest.head?.all (fun c => !(numberingChars.contains c)) = true →
      stripInstrNumbering (pre ++ rest) = rest) ∧
    (∀ line : PyStr, pyStrip line = [] → lineInstruction line = none) := by
  constructor
  · exact stripInstrNumbering_append
  · intro line h
    unfold lineInstruction
    simp [h]

/-- Witness for the amended C8: "2. Mix well" keeps "Mix well", and a blank
line is skipped. -/
theorem instruction_numbering_strip_amended_witness :
    stripInstrNumbering ((("2. ").toList) ++ (("Mix well").toList)) = ("Mix well").toList ∧
    lineInstruction (("   ").toList) = none :=
  ⟨instruction_numbering_strip_amended.1 (("2. ").toList) (("Mix well").toList)
    (by decide) (by decide),
   instruction_numbering_strip_amended.2 (("   ").toList) (by decide)⟩

/-- A list is a Boolean prefix of itself followed by anything. -/
theorem isPrefixOf_append_self (l t : PyStr) : l.isPrefixOf (l ++ t) = true := by
  induction l with
  | nil => cases t <;> rfl
  | cons a as ih => simp [List.isPrefixOf, ih]

/-- The substring test succeeds on the pattern followed by anything. -/
theorem containsSub_self_append (pat t : PyStr) : containsSub pat (pat ++ t) = true := by
  unfold containsSub
  cases pat with
  | nil =>
    cases t with
    | nil => rfl
    | cons c cs => simp [findSplit]
  | cons p ps =>
    rw [List.cons_append]
    simp only [findSplit]
    have := isPrefixOf_append_self (p :: ps) t
    rw [List.cons_append] at this
    simp [this]

/-- The substring test is preserved by prepending text. -/
theorem containsSub_append_left (pat a s : PyStr) (h : containsSub pat s = true) :
    containsSub pat (a ++ s) = true := by
  induction a with
  | nil => simpa using h
  | cons c cs ih =>
    unfold containsSub at ih ⊢
    rw [List.cons_append]
    simp only [findSplit]
    by_cases hpre : pat.isPrefixOf (c :: (cs ++ s)) = true
    · simp [hpre]
    · simp only [hpre, Bool.false_eq_true, if_false]
      cases hfs : findSplit pat (cs ++ s) with
      | none => rw [hfs] at ih; simp at ih
      | some pr => simp [hfs]

/-- Helper for first-appearance category collection: anything in the
accumulator or in the remaining input ends up in the fold's result. -/
theorem mem_firstSeen_foldl (c : PyStr) (cats : List PyStr) (acc : List PyStr)
    (h : c ∈ acc ∨ c ∈ cats) :
    c ∈ cats.foldl (fun acc x => if acc.contains x then acc else acc ++ [x]) acc := by
  induction cats generalizing acc with
  | nil => simpa using h
  | cons d ds ih =>
    simp only [List.foldl_cons]
    apply ih
    by_cases hd : acc.contains d = true
    · rw [if_pos hd]
      rcases h with h | h
      · exact Or.inl h
      · rcases List.mem_cons.mp h with rfl | h
        · exact Or.inl (by simpa using hd)
        · exact Or.inr h
    · rw [if_neg hd]
      rcases h with h | h
      · exact Or.inl (List.mem_append_left _ h)
      · rcases List.mem_cons.mp h with rfl | h
        · exact Or.inl (List.mem_append_right _ (by simp))
        · exact Or.inr h

/-- Every category in the input is collected. -/
theorem mem_firstSeenCategories (c : PyStr) (cats : List PyStr) (h : c ∈ cats) :
    c ∈ firstSeenCategories cats :=
  mem_firstSeen_foldl c cats [] (Or.inr h)

/-- A name occurring in a duplicate-free list is counted exactly once. -/
theorem countP_beq_nodup (l : List PyStr) (a : PyStr) (h : l.Nodup) (ha : a ∈ l) :
    l.countP (fun x => x == a) = 1 := by
  induction l with
  | nil => simp at ha
  | cons x xs ih =>
    rw [List.nodup_cons] at h
    rw [List.countP_cons]
    rcases List.mem_cons.mp ha with rfl | hxs
    · have h0 : xs.countP (fun y => y == a) = 0 :=
        List.countP_eq_zero.mpr (fun y hy hbeq => h.1 ((eq_of_beq hbeq) ▸ hy))
      rw [h0]
      simp
    · have hx : (x == a) = false := by
        have hne : x ≠ a := fun hc => h.1 (hc ▸ hxs)
        simp [hne]
      rw [ih h.2 hxs, hx]
      simp

/-- Count of one entity's name among the rendered names of its sorted
category group: exactly one, provided names are globally distinct. -/
theorem count_sorted_filter_names {α : Type}
    (nameF catF : α → PyStr) (r : α → α → Prop) [DecidableRel r]
    (items : List α) (it : α)
    (hnd : (items.map nameF).Nodup) (hit : it ∈ items) :
    ((List.insertionSort r (items.filter (fun x => catF x == catF it))).map nameF).countP
      (fun n => n == nameF it) = 1 := by
  have hperm : List.Perm (List.insertionSort r (items.filter (fun x => catF x == catF it)))
      (items.filter (fun x => catF x == catF it)) := List.perm_insertionSort r _
  rw [List.Perm.countP_eq _ (hperm.map nameF)]
  have hmem : it ∈ items.filter (fun x => catF x == catF it) :=
    List.mem_filter.mpr ⟨hit, by simp⟩
  have hge : 0 < ((items.filter (fun x => catF x == catF it)).map nameF).countP
      (fun n => n == nameF it) :=
    List.countP_pos_iff.mpr ⟨nameF it, List.mem_map_of_mem nameF hmem, by simp⟩
  have hsub : List.Sublist ((items.filter (fun x => catF x == catF it)).map nameF)
      (items.map nameF) :=
    List.Sublist.map nameF (List.filter_sublist items)
  have hle := List.Sublist.countP_le (fun n => n == nameF it) hsub
  have h1 : (items.map nameF).countP (fun n => n == nameF it) = 1 :=
    countP_beq_nodup (items.map nameF) (nameF it) hnd (List.mem_map_of_mem nameF hit)
  omega

/-- Each item's category owns a rendered block: it is among the sorted
category keys of the shopping-list exporter. -/
theorem mem_slSortedCats (sl : ShoppingList) (it : ShoppingItem) (hit : it ∈ sl.items) :
    it.category ∈ slSortedCats sl := by
  unfold slSortedCats
  rw [List.Perm.mem_iff (List.perm_insertionSort _ _)]
  exact mem_firstSeenCategories _ _ (List.mem_map_of_mem _ hit)

/-- Each ingredient's category is among the sorted category keys of the
recipe exporter. -/
theorem mem_recipeSortedCats (r : Recipe) (ing : RecipeIngredient) (hing : ing ∈ r.ingredients) :
    ing.category ∈ recipeSortedCats r := by
  unfold recipeSortedCats
  rw [List.Perm.mem_iff (List.perm_insertionSort _ _)]
  exact mem_firstSeenCategories _ _ (List.mem_map_of_mem _ hing)

/-- C7 (amended): both markdown exporters emit the entity's name; items and
ingredients are grouped by exact category (each category block renders the
sorted filter of the entities with that category, and every entity's
category has a block); and, provided the names are distinct, each name
occurs exactly once among the rendered entries of its category group. -/
theorem export_markdown_name_per_group :
    (∀ sl : ShoppingList,
      containsSub sl.name (export_to_markdown sl) = true ∧
      (∀ c : PyStr, slGroupItems sl c = sl.items.filter (fun x => x.category == c)) ∧
      ((sl.items.map (fun x => x.name)).Nodup →
        ∀ it ∈ sl.items,
          it.category ∈ slSortedCats sl ∧
          (((List.insertionSort shoppingItemKeyLe (slGroupItems sl it.category)).map
            (fun x => x.name)).countP (fun n => n == it.name) = 1))) ∧
    (∀ r : Recipe,
      containsSub r.name (export_recipe_to_markdown r) = true ∧
      (∀ c : PyStr, recipeGroupIngredients r c = r.ingredients.filter (fun x => x.category == c)) ∧
      ((r.ingredients.map (fun x => x.name)).Nodup →
        ∀ ing ∈ r.ingredients,
          ing.category ∈ recipeSortedCats r ∧
          (((List.insertionSort ingredientKeyLe (recipeGroupIngredients r ing.category)).map
            (fun x => x.name)).countP (fun n => n == ing.name) = 1))) := by
  constructor
  · intro sl
    refine ⟨?_, fun c => rfl, ?_⟩
    · unfold export_to_markdown
      simp only [List.append_assoc]
      exact containsSub_append_left _ _ _ (containsSub_self_append _ _)
    · intro hnd it hit
      refine ⟨mem_slSortedCats sl it hit, ?_⟩
      exact count_sorted_filter_names (fun x => x.name) (fun x => x.category)
        shoppingItemKeyLe sl.items it hnd hit
  · intro r
    refine ⟨?_, fun c => rfl, ?_⟩
    · unfold export_recipe_to_markdown
      simp only [List.append_assoc]
      exact containsSub_append_left _ _ _ (containsSub_self_append _ _)
    · intro hnd ing hing
      refine ⟨mem_recipeSortedCats r ing hing, ?_⟩
      exact count_sorted_filter_names (fun x => x.name) (fun x => x.category)
        ingredientKeyLe r.ingredients ing hnd hing

/-- Dairy item named "milk". -/
def exMilkItem : ShoppingItem :=
  { name := ("milk").toList
    quantity := 1
    quantity_unit_of_measure := ("pieces").toList
    category := ("Dairy").toList
    purchased := false
    notes := none
    created_at := 0
    updated_at := 0 }

/-- Shopping list holding the same milk item twice. -/
def exDupList : ShoppingList :=
  { name := ("Groceries").toList
    items := [exMilkItem, exMilkItem]
    created_at := 0
    updated_at := 0 }

/-- C7 counterexample: with two items named "milk" in the Dairy category,
the rendered Dairy group carries the name "milk" twice, so the claim's
"exactly once per category group" fails as stated. -/
theorem duplicate_names_counted_twice_counterexample :
    ¬((((List.insertionSort shoppingItemKeyLe (slGroupItems exDupList (("Dairy").toList))).map
      (fun x => x.name)).countP (fun n => n == (("milk").toList))) = 1) := by
  decide

/-- Witness for the amended C7 at a concrete list. -/
theorem export_markdown_name_per_group_witness :
    containsSub exListKg.name (export_to_markdown exListKg) = true ∧
    (((List.insertionSort shoppingItemKeyLe (slGroupItems exListKg exItemKg.category)).map
      (fun x => x.name)).countP (fun n => n == exItemKg.name) = 1) :=
  ⟨(export_markdown_name_per_group.1 exListKg).1,
   ((export_markdown_name_per_group.1 exListKg).2.2 (by decide) exItemKg (by decide)).2⟩
